import Mathlib

/-!
Shallow embedding of the archsim processor simulator, checked against its
natural-language specification.  The definitions mirror the Python source of
the repository: the register file with the hard-wired zero register
(architecture_simulator/uarch/architectural_state.py, class Registers), the
sparse little-endian byte memory (class Memory), the CSR register file with
its privilege / legality / read-only checks (class CsrRegisterFile), the
RV32I instruction behaviors (isa/riscv/rv32i_instructions.py), the pipeline
stages (uarch/riscv/stages.py) and the toy architecture
(isa/toy/toy_instructions.py).  Machine integers are modelled as Nat with
explicit reduction modulo 2 ^ width at the points where the source wraps
values through fixedint types.
-/

namespace ArchSim

/-! ## Register file

Mirrors class Registers in uarch/architectural_state.py: a list of 32
registers where setitem ignores any index outside 1..31, so register x0 can
never be overwritten. -/

/-- Source: Registers.setitem — the write happens only when
0 < index and index < 32. -/
def regSet (regs : List Nat) (index : Nat) (value : Nat) : List Nat :=
  if 0 < index ∧ index < 32 then regs.set index value else regs

/-- Source: Registers.getitem — a plain list read; absent indices modelled
as the default 0 (the source raises, the claims only read index 0 of the
32-entry list, which always exists). -/
def regRead (regs : List Nat) (index : Nat) : Nat :=
  regs.getD index 0

/-- Source: RegisterFile default construction — 32 registers, all zero. -/
def initRegisters : List Nat := List.replicate 32 0

/-- Apply a sequence of (index, value) writes through regSet. -/
def applyWrites (regs : List Nat) (writes : List (Nat × Nat)) : List Nat :=
  writes.foldl (fun r w => regSet r w.1 w.2) regs

/-! ## Byte-addressed memory

Mirrors class Memory in uarch/architectural_state.py.  The Python dict
memory_file is modelled as an association list where the most recent store
comes first, so List.lookup returns the value of the latest store to an
address, and a missing key reads as 0 (the source catches KeyError and
returns 0).  Every address is reduced modulo 2 ^ address_length exactly as
in the source, and stored bytes are the corresponding 8-bit slices of the
wrapped value. -/

structure Memory where
  address_length : Nat := 32
  memory_file : List (Nat × Nat) := []

/-- Source: Memory.load_byte. -/
def Memory.load_byte (m : Memory) (address : Nat) : Nat :=
  (m.memory_file.lookup (address % 2 ^ m.address_length)).getD 0

/-- Source: Memory.store_byte — the value is wrapped to 8 bits. -/
def Memory.store_byte (m : Memory) (address : Nat) (value : Nat) : Memory :=
  { m with memory_file :=
      (address % 2 ^ m.address_length, value % 2 ^ 8) :: m.memory_file }

/-- Source: Memory.load_halfword — little endian: the byte at the address is
the low byte. -/
def Memory.load_halfword (m : Memory) (address : Nat) : Nat :=
  (((m.memory_file.lookup ((address + 1) % 2 ^ m.address_length)).getD 0) <<< 8) |||
  ((m.memory_file.lookup (address % 2 ^ m.address_length)).getD 0)

/-- Source: Memory.store_halfword — wraps the value to 16 bits and stores
its two byte slices at address and address + 1 (the later dict assignment
wins on a collision, hence the later store is closer to the head). -/
def Memory.store_halfword (m : Memory) (address : Nat) (value : Nat) : Memory :=
  let safe := value % 2 ^ 16
  { m with memory_file :=
      ((address + 1) % 2 ^ m.address_length, safe / 2 ^ 8 % 2 ^ 8) ::
      (address % 2 ^ m.address_length, safe % 2 ^ 8) :: m.memory_file }

/-- Source: Memory.load_word — four byte reads combined little endian with
left-associated bitwise or, mirroring addr4 or addr3 or addr2 or addr1. -/
def Memory.load_word (m : Memory) (address : Nat) : Nat :=
  (((m.memory_file.lookup ((address + 3) % 2 ^ m.address_length)).getD 0) <<< 24) |||
  (((m.memory_file.lookup ((address + 2) % 2 ^ m.address_length)).getD 0) <<< 16) |||
  (((m.memory_file.lookup ((address + 1) % 2 ^ m.address_length)).getD 0) <<< 8) |||
  ((m.memory_file.lookup (address % 2 ^ m.address_length)).getD 0)

/-- Source: Memory.store_word — wraps the value to 32 bits and stores its
four byte slices at address .. address + 3. -/
def Memory.store_word (m : Memory) (address : Nat) (value : Nat) : Memory :=
  let safe := value % 2 ^ 32
  { m with memory_file :=
      ((address + 3) % 2 ^ m.address_length, safe / 2 ^ 24 % 2 ^ 8) ::
      ((address + 2) % 2 ^ m.address_length, safe / 2 ^ 16 % 2 ^ 8) ::
      ((address + 1) % 2 ^ m.address_length, safe / 2 ^ 8 % 2 ^ 8) ::
      (address % 2 ^ m.address_length, safe % 2 ^ 8) :: m.memory_file }

/-! ## CSR register file

Mirrors class CsrRegisterFile in uarch/architectural_state.py, a subclass of
Memory with a privilege level and three checks run before each access.  A
check that raises in Python is modelled with Except: the error carries the
message string of the raised exception. -/

inductive CsrError where
  | privilegeTooLow
  | illegalAddress
  | readOnly
deriving DecidableEq, Repr

/-- Source: CsrRegisterFile.check_privilege_level — note that the source
compares the masked but UNSHIFTED bits (address and 0b001100000000, one of
0, 256, 512, 768) against the privilege level. -/
def checkPrivilegeLevel (address : Nat) (privilege_level : Nat) : Except CsrError Unit :=
  if address &&& 0b001100000000 > privilege_level then .error .privilegeTooLow
  else .ok ()

/-- Source: CsrRegisterFile.check_for_legal_address — addresses are Nat, so
only the upper bound matters. -/
def checkForLegalAddress (address : Nat) : Except CsrError Unit :=
  if address > 4095 then .error .illegalAddress else .ok ()

/-- Source: CsrRegisterFile.check_read_only — raises when bits 11 and 10 of
the address are both set. -/
def checkReadOnly (address : Nat) : Except CsrError Unit :=
  if address &&& 0b100000000000 ≠ 0 ∧ address &&& 0b010000000000 ≠ 0 then .error .readOnly
  else .ok ()

structure CsrRegisterFile where
  mem : Memory := {}
  privilege_level : Nat := 0

/-- Source: CsrRegisterFile.store_word — checks legality, privilege and
read-only of the base address only, then delegates to Memory.store_word. -/
def CsrRegisterFile.store_word (c : CsrRegisterFile) (address : Nat) (value : Nat) :
    Except CsrError CsrRegisterFile := do
  let _ ← checkForLegalAddress address
  let _ ← checkPrivilegeLevel address c.privilege_level
  let _ ← checkReadOnly address
  .ok { c with mem := c.mem.store_word address value }

/-- Source: CsrRegisterFile.load_word — checks legality and privilege of the
base address only, then delegates to Memory.load_word. -/
def CsrRegisterFile.load_word (c : CsrRegisterFile) (address : Nat) :
    Except CsrError Nat := do
  let _ ← checkForLegalAddress address
  let _ ← checkPrivilegeLevel address c.privilege_level
  .ok (c.mem.load_word address)

/-- Source: ArchitecturalState.change_privilege_level — accepts only
levels 0..3 (Nat, so only the upper bound matters). -/
def changePrivilegeLevel (current : Nat) (level : Nat) : Nat :=
  if ¬level > 3 then level else current

/-- Source: CSRRW.behavior in isa/riscv/rv32i_instructions.py — reads the
old CSR value into rd, then writes rs1 into the CSR; either CSR access can
raise, and the read happens first. -/
def csrrwBehavior (csr : Nat) (rs1_value : Nat) (c : CsrRegisterFile) :
    Except CsrError (Nat × CsrRegisterFile) := do
  let old ← c.load_word csr
  let c2 ← c.store_word csr rs1_value
  .ok (old, c2)

/-! ## RV32I shift instructions

Mirrors SLL/SRL/SRA and SLLI/SRLI/SRAI in isa/riscv/rv32i_instructions.py.
Register values are 32-bit, modelled as Nat below 2 ^ 32.  toSigned gives
the two's-complement reading used by fixedint.Int32 casts. -/

/-- Two's-complement reading of a 32-bit value, as in fixedint.Int32. -/
def toSigned (a : Nat) : Int :=
  if a < 2 ^ 31 then (a : Int) else (a : Int) - 2 ^ 32

/-- Wrap an Int back to its 32-bit unsigned representation, as in
fixedint.MutableUInt32 of a signed value. -/
def toUnsigned (i : Int) : Nat :=
  (i.emod (2 ^ 32)).toNat

/-- Source: SLL.behavior — rs2 is reduced mod 32 before shifting and the
result wraps to 32 bits. -/
def sllBehavior (rs1 rs2 : Nat) : Nat := (rs1 <<< (rs2 % 32)) % 2 ^ 32

/-- Source: SRL.behavior — rs2 is reduced mod 32 before the logical shift. -/
def srlBehavior (rs1 rs2 : Nat) : Nat := (rs1 % 2 ^ 32) >>> (rs2 % 32)

/-- Source: SRA.behavior — arithmetic shift of the signed reading of rs1 by
rs2 mod 32; a sign-extending right shift is floor division by the power of
two. -/
def sraBehavior (rs1 rs2 : Nat) : Nat :=
  toUnsigned (Int.fdiv (toSigned (rs1 % 2 ^ 32)) (2 ^ (rs2 % 32)))

/-- Source: ShiftITypeInstruction constructor in isa/instruction_types.py —
the immediate is masked to its low five bits at construction. -/
def shiftImmStored (imm : Nat) : Nat := imm &&& (2 ^ 5 - 1)

/-- Source: SLLI.behavior applied to the stored immediate. -/
def slliBehavior (rs1 imm : Nat) : Nat := (rs1 <<< shiftImmStored imm) % 2 ^ 32

/-- Source: SRLI.behavior applied to the stored immediate. -/
def srliBehavior (rs1 imm : Nat) : Nat := (rs1 % 2 ^ 32) >>> shiftImmStored imm

/-- Source: SRAI.behavior applied to the stored immediate. -/
def sraiBehavior (rs1 imm : Nat) : Nat :=
  toUnsigned (Int.fdiv (toSigned (rs1 % 2 ^ 32)) (2 ^ shiftImmStored imm))

/-! ## Conditional branches

Mirrors BEQ/BNE/BLT/BGE/BLTU/BGEU in isa/riscv/rv32i_instructions.py.  All
six behaviors have the same shape and differ only in the condition on the
two register values.  The program counter is a Python int, modelled as Int
(a taken backward branch can make the intermediate value negative before the
engine adds the instruction length back). -/

/-- Sign extension of a 12-bit immediate, as in
(imm and 2047) - (imm and 2048) on a Python int. -/
def sext12 (imm : Int) : Int :=
  let r := imm.emod 4096
  if r < 2048 then r else r - 4096

/-- Modelled from the spec: the constructor of BTypeInstruction in
isa/riscv/instruction_types.py is not under src (only the superseded copy in
isa/instruction_types.py is).  Spec section 3: the B immediate is a
sign-extended 12-bit value stored times 2, and section 4.6 gives the branch
PC delta as imm times 2 minus length. -/
def btypeStoredImm (imm : Int) : Int := 2 * sext12 imm

/-- The six conditional branch mnemonics. -/
inductive BranchOp where
  | beq | bne | blt | bge | bltu | bgeu
deriving DecidableEq, Repr

/-- Source: the comparisons of BEQ/BNE/BLTU/BGEU on unsigned 32-bit values
and of BLT/BGE on their fixedint.Int32 signed readings. -/
def branchCond : BranchOp → Nat → Nat → Bool
  | .beq, a, b => a = b
  | .bne, a, b => a ≠ b
  | .blt, a, b => toSigned a < toSigned b
  | .bge, a, b => toSigned a ≥ toSigned b
  | .bltu, a, b => a < b
  | .bgeu, a, b => a ≥ b

/-- The branch-relevant slice of the architectural state: program counter,
branch counter of the performance metrics, and the register list. -/
structure BranchState where
  program_counter : Int
  branch_count : Nat
  registers : List Nat
deriving DecidableEq, Repr

/-- Source: Instruction.length defaults to 4 for all RV32I instructions. -/
def instructionLength : Int := 4

/-- Source: BEQ.behavior and its five siblings — when the condition on the
two register reads holds, the program counter is increased by the stored
immediate minus the instruction length and branch_count is incremented;
otherwise the state is returned unchanged. -/
def branchBehavior (op : BranchOp) (rs1 rs2 : Nat) (imm : Int) (s : BranchState) :
    BranchState :=
  if branchCond op (regRead s.registers rs1) (regRead s.registers rs2) then
    { s with
      program_counter := s.program_counter + btypeStoredImm imm - instructionLength,
      branch_count := s.branch_count + 1 }
  else s

/-! ## Toy architecture

Mirrors isa/toy/toy_instructions.py.  The constructors of the address-type
instructions reduce the address mod 4096; decoding masks the fields out of
the 16-bit machine word. -/

inductive ToyInstruction where
  | STO (address : Nat)
  | LDA (address : Nat)
  | BRZ (address : Nat)
  | ADD (address : Nat)
  | SUB (address : Nat)
  | OR (address : Nat)
  | AND (address : Nat)
  | XOR (address : Nat)
  | NOT
  | INC
  | DEC
  | ZRO
  | NOP
deriving DecidableEq, Repr

namespace ToyInstruction

/-- Source: the opcode each constructor passes to ToyInstruction. -/
def opcode : ToyInstruction → Nat
  | STO _ => 0
  | LDA _ => 1
  | BRZ _ => 2
  | ADD _ => 3
  | SUB _ => 4
  | OR _ => 5
  | AND _ => 6
  | XOR _ => 7
  | NOT => 8
  | INC => 9
  | DEC => 10
  | ZRO => 11
  | NOP => 12

/-- Source: AddressTypeInstruction stores address mod 4096; building an
instruction through the Python constructors applies this reduction. -/
def mk_address (f : Nat → ToyInstruction) (address : Nat) : ToyInstruction :=
  f (address % 4096)

/-- Source: ToyInstruction.to_integer and AddressTypeInstruction.to_integer —
opcode shifted left by 12, plus the address for address-type instructions. -/
def to_integer : ToyInstruction → Nat
  | STO address => (0 <<< 12) + address
  | LDA address => (1 <<< 12) + address
  | BRZ address => (2 <<< 12) + address
  | ADD address => (3 <<< 12) + address
  | SUB address => (4 <<< 12) + address
  | OR address => (5 <<< 12) + address
  | AND address => (6 <<< 12) + address
  | XOR address => (7 <<< 12) + address
  | NOT => 8 <<< 12
  | INC => 9 <<< 12
  | DEC => 10 <<< 12
  | ZRO => 11 <<< 12
  | NOP => 12 <<< 12

/-- Source: ToyInstruction.from_integer — opcode is (w >> 12) and 0xF,
address is w and 0xFFF; the if/elif chain maps opcodes 0..11 to the listed
constructors and everything else to NOP. -/
def from_integer (integer_instruction : Nat) : ToyInstruction :=
  let opcode := (integer_instruction >>> 12) &&& 0xF
  let address := integer_instruction &&& 0xFFF
  if opcode = 0 then STO address
  else if opcode = 1 then LDA address
  else if opcode = 2 then BRZ address
  else if opcode = 3 then ADD address
  else if opcode = 4 then SUB address
  else if opcode = 5 then OR address
  else if opcode = 6 then AND address
  else if opcode = 7 then XOR address
  else if opcode = 8 then NOT
  else if opcode = 9 then INC
  else if opcode = 10 then DEC
  else if opcode = 11 then ZRO
  else NOP

end ToyInstruction

/-- Modelled from the spec: ToyArchitecturalState
(uarch/toy/toy_architectural_state.py) is not under src.  Spec section 4.9:
a 16-bit program counter, a 16-bit accumulator, halfword data memory, and
the branch counter of the performance metrics. -/
structure ToyState where
  program_counter : Nat
  accu : Nat
  data_memory : List (Nat × Nat)
  branch_count : Nat
deriving DecidableEq, Repr

/-- Modelled from the spec: ToyArchitecturalState.increment_pc on the 16-bit
program counter. -/
def toyIncrementPc (s : ToyState) : ToyState :=
  { s with program_counter := (s.program_counter + 1) % 2 ^ 16 }

/-- Modelled from the spec: ToyArchitecturalState.set_pc, called in the
source as set_pc(MutableUInt16(address)). -/
def toySetPc (s : ToyState) (address : Nat) : ToyState :=
  { s with program_counter := address % 2 ^ 16 }

/-- Source: BRZ.behavior in isa/toy/toy_instructions.py — if the accumulator
is truthy (nonzero) the program counter is incremented, otherwise the
program counter is set to the address and branch_count is incremented. -/
def brzBehavior (address : Nat) (s : ToyState) : ToyState :=
  if s.accu ≠ 0 then toyIncrementPc s
  else
    let s2 := toySetPc s address
    { s2 with branch_count := s2.branch_count + 1 }

/-! ## Pipeline ID stage: data hazard detection

Mirrors the hazard-detection part of InstructionDecodeStage.behavior in
uarch/riscv/stages.py.  The decoded instruction contributes its two read
addresses (access_register_file may return None for either) and its own
address; each later pipeline register contributes the write register of the
instruction it holds (None for instructions without a write register and for
Empty bubbles). -/

structure FlushSignal where
  inclusive : Bool
  address : Nat
deriving DecidableEq, Repr

/-- Source: the loop body in InstructionDecodeStage.behavior — a later write
register causes a hazard when it is not None, not zero, and equal to one of
the two read addresses. -/
def writeRegisterHazard (ra1 ra2 : Option Nat) : Option Nat → Bool
  | none => false
  | some r => if r = 0 then false else ra1 = some r ∨ ra2 = some r

/-- Source: the hazard-detection block of InstructionDecodeStage.behavior —
with detection enabled, scanning the later write registers in order and
stopping at the first hazard yields an inclusive flush whose target is the
address of the decoded instruction. -/
def idFlushSignal (detect_data_hazards : Bool) (ra1 ra2 : Option Nat)
    (address_of_instruction : Nat) (later_write_registers : List (Option Nat)) :
    Option FlushSignal :=
  if detect_data_hazards ∧ later_write_registers.any (writeRegisterHazard ra1 ra2) then
    some ⟨true, address_of_instruction⟩
  else none

/-! ## Single-cycle engine

Mirrors SingleStage.behavior in uarch/riscv/stages.py.  A Python exception
raised by an instruction behavior is modelled by the behavior returning the
mutated state together with an error value; the engine wraps the error into
InstructionExecutionException and leaves the state exactly as the failing
behavior produced it, adding the instruction length to the program counter
only on success. -/

/-- The state slice the single-cycle engine touches. -/
structure SingleCycleState where
  program_counter : Nat
  instruction_count : Nat
  registers : List Nat
deriving DecidableEq, Repr

/-- An RV32I instruction as the single-cycle engine consumes it: its
monolithic behavior (returning the mutated state and, on a raise, the
error), its length and its textual representation. -/
structure SingleCycleInstruction where
  behavior : SingleCycleState → SingleCycleState × Option String
  length : Nat
  reprStr : String

/-- Source: InstructionExecutionException in uarch/riscv/pipeline.py as used
by SingleStage.behavior — the faulting address, the instruction repr and the
original error. -/
structure InstructionExecutionException where
  address : Nat
  instruction_repr : String
  error_message : String
deriving DecidableEq, Repr

/-- Source: SingleStage.behavior — when the instruction memory holds an
instruction at the program counter, record the address, bump
instruction_count, run the behavior; on success add the instruction length
to the (possibly behavior-modified) program counter, on failure wrap the
error with the pre-increment address and the instruction repr, leaving the
state as the behavior produced it. -/
def singleStageBehavior (instruction_memory : Nat → Option SingleCycleInstruction)
    (state : SingleCycleState) :
    SingleCycleState × Option InstructionExecutionException :=
  match instruction_memory state.program_counter with
  | none => (state, none)
  | some instr =>
    let pc_before_increment := state.program_counter
    let counted := { state with instruction_count := state.instruction_count + 1 }
    match instr.behavior counted with
    | (after, none) =>
      ({ after with program_counter := after.program_counter + instr.length }, none)
    | (after, some e) =>
      (after, some ⟨pc_before_increment, instr.reprStr, e⟩)

/-- Source: ECALL.behavior in isa/riscv/rv32i_instructions.py — raises
InstructionNotImplemented without touching the state. -/
def ecallInstruction : SingleCycleInstruction :=
  ⟨fun s => (s, some "InstructionNotImplemented(mnemonic=ecall)"), 4, "ecall"⟩

/-! ## Helper lemmas -/

theorem lookup_head (k b : Nat) (l : List (Nat × Nat)) :
    List.lookup k ((k, b) :: l) = some b := by
  simp [List.lookup_cons]

theorem lookup_tail {a k : Nat} (h : a ≠ k) (b : Nat) (l : List (Nat × Nat)) :
    List.lookup a ((k, b) :: l) = List.lookup a l := by
  have hne : (a == k) = false := by simpa using h
  simp [List.lookup_cons, hne]

/-- Distinct small offsets from the same base stay distinct modulo M. -/
theorem add_mod_ne {M i j : Nat} (a : Nat) (hij : i < j) (hj : j < M) :
    (a + i) % M ≠ (a + j) % M := by
  intro h
  have hle : a + i ≤ a + j := by omega
  have hdvd : M ∣ a + j - (a + i) := (Nat.modEq_iff_dvd' hle).mp h
  have heq : a + j - (a + i) = j - i := by omega
  rw [heq] at hdvd
  have := Nat.le_of_dvd (by omega) hdvd
  omega

/-! ## C4: the hard-wired zero register -/

/-- C4 — For every sequence of writes through the register file, reading
register 0 afterwards returns 0; a write to index 0 is silently discarded, a
write to an index above 31 is silently discarded, and a write to an index in
1..31 changes only the targeted register. -/
theorem register_file_zero (writes : List (Nat × Nat)) (regs : List Nat) (i j v : Nat) :
    regRead (applyWrites initRegisters writes) 0 = 0
    ∧ regSet regs 0 v = regs
    ∧ (31 < i → regSet regs i v = regs)
    ∧ (0 < i → i < 32 → regs.length = 32 → j < 32 →
        regRead (regSet regs i v) j = if j = i then v else regRead regs j) := by
  refine ⟨?_, ?_, ?_, ?_⟩
  · have main : ∀ (ws : List (Nat × Nat)) (l : List Nat),
        regRead l 0 = 0 → regRead (applyWrites l ws) 0 = 0 := by
      intro ws
      induction ws with
      | nil => intro l h; simpa [applyWrites] using h
      | cons w rest ih =>
        intro l h
        have step : regRead (regSet l w.1 w.2) 0 = 0 := by
          unfold regSet
          split
          · next hcond =>
            have hne : w.1 ≠ 0 := by omega
            simpa [regRead, List.getElem?_set_ne hne] using h
          · exact h
        simpa [applyWrites] using ih (regSet l w.1 w.2) step
    exact main writes initRegisters (by decide)
  · simp [regSet]
  · intro h
    simp [regSet]
    omega
  · intro h1 h2 hlen hj
    unfold regSet
    rw [if_pos ⟨h1, h2⟩]
    by_cases hij : j = i
    · subst hij
      simp [regRead, List.getElem?_set_self (by omega : j < regs.length)]
    · simp [regRead, List.getElem?_set_ne (fun h => hij h.symm), hij]

/-- Witness for C4 at a concrete write sequence and a concrete in-range
write. -/
theorem register_file_zero_witness :
    regRead (applyWrites initRegisters [(1, 5), (0, 7), (40, 9)]) 0 = 0
    ∧ regRead (regSet initRegisters 1 5) 1 = if 1 = 1 then 5 else regRead initRegisters 1 := by
  constructor
  · exact (register_file_zero [(1, 5), (0, 7), (40, 9)] initRegisters 1 1 5).1
  · exact (register_file_zero [] initRegisters 1 1 5).2.2.2
      (by decide) (by decide) (by decide) (by decide)

/-! ## C6: little-endian memory round trips -/

/-- The four bytes a word store places in the memory file, read back through
load_byte. -/
theorem store_word_load_bytes (m : Memory) (a v : Nat) (hW : 2 ≤ m.address_length) :
    (m.store_word a v).load_byte a = v % 2 ^ 32 % 2 ^ 8
    ∧ (m.store_word a v).load_byte (a + 1) = v % 2 ^ 32 / 2 ^ 8 % 2 ^ 8
    ∧ (m.store_word a v).load_byte (a + 2) = v % 2 ^ 32 / 2 ^ 16 % 2 ^ 8
    ∧ (m.store_word a v).load_byte (a + 3) = v % 2 ^ 32 / 2 ^ 24 % 2 ^ 8 := by
  have hM : 4 ≤ 2 ^ m.address_length := by
    calc (4 : Nat) = 2 ^ 2 := rfl
    _ ≤ 2 ^ m.address_length := Nat.pow_le_pow_right (by omega) hW
  have d01 : a % 2 ^ m.address_length ≠ (a + 1) % 2 ^ m.address_length := by
    simpa using add_mod_ne (M := 2 ^ m.address_length) a (i := 0) (j := 1) (by omega) (by omega)
  have d02 : a % 2 ^ m.address_length ≠ (a + 2) % 2 ^ m.address_length := by
    simpa using add_mod_ne (M := 2 ^ m.address_length) a (i := 0) (j := 2) (by omega) (by omega)
  have d03 : a % 2 ^ m.address_length ≠ (a + 3) % 2 ^ m.address_length := by
    simpa using add_mod_ne (M := 2 ^ m.address_length) a (i := 0) (j := 3) (by omega) (by omega)
  have d12 : (a + 1) % 2 ^ m.address_length ≠ (a + 2) % 2 ^ m.address_length :=
    add_mod_ne (M := 2 ^ m.address_length) a (i := 1) (j := 2) (by omega) (by omega)
  have d13 : (a + 1) % 2 ^ m.address_length ≠ (a + 3) % 2 ^ m.address_length :=
    add_mod_ne (M := 2 ^ m.address_length) a (i := 1) (j := 3) (by omega) (by omega)
  have d23 : (a + 2) % 2 ^ m.address_length ≠ (a + 3) % 2 ^ m.address_length :=
    add_mod_ne (M := 2 ^ m.address_length) a (i := 2) (j := 3) (by omega) (by omega)
  refine ⟨?_, ?_, ?_, ?_⟩
  · simp only [Memory.store_word, Memory.load_byte]
    rw [lookup_tail d03, lookup_tail d02, lookup_tail d01, lookup_head]
    rfl
  · simp only [Memory.store_word, Memory.load_byte]
    rw [lookup_tail d13, lookup_tail d12, lookup_head]
    rfl
  · simp only [Memory.store_word, Memory.load_byte]
    rw [lookup_tail d23, lookup_head]
    rfl
  · simp only [Memory.store_word, Memory.load_byte]
    rw [lookup_head]
    rfl

/-- Bitwise or acts as addition when the left operand is a multiple of a
power of two that bounds the right operand. -/
theorem or_join (x y k : Nat) (hx : ∃ x2, x = x2 * 2 ^ k) (hy : y < 2 ^ k) :
    x ||| y = x + y := by
  obtain ⟨x2, rfl⟩ := hx
  rw [Nat.mul_comm]
  exact (Nat.mul_add_lt_is_or hy x2).symm

/-- The little-endian combination of four bytes, written with shifts and
bitwise or as in the source, equals the weighted sum of the bytes. -/
theorem four_bytes_or (b3 b2 b1 b0 : Nat) (h2 : b2 < 2 ^ 8) (h1 : b1 < 2 ^ 8)
    (h0 : b0 < 2 ^ 8) :
    b3 <<< 24 ||| b2 <<< 16 ||| b1 <<< 8 ||| b0 =
      b3 * 2 ^ 24 + b2 * 2 ^ 16 + b1 * 2 ^ 8 + b0 := by
  rw [Nat.shiftLeft_eq, Nat.shiftLeft_eq, Nat.shiftLeft_eq]
  have s1 : b3 * 2 ^ 24 ||| b2 * 2 ^ 16 = b3 * 2 ^ 24 + b2 * 2 ^ 16 :=
    or_join _ _ 24 ⟨b3, rfl⟩ (by omega)
  rw [s1]
  have s2 : b3 * 2 ^ 24 + b2 * 2 ^ 16 ||| b1 * 2 ^ 8 =
      b3 * 2 ^ 24 + b2 * 2 ^ 16 + b1 * 2 ^ 8 :=
    or_join _ _ 16 ⟨b3 * 2 ^ 8 + b2, by ring⟩ (by omega)
  rw [s2]
  exact or_join _ _ 8 ⟨b3 * 2 ^ 16 + b2 * 2 ^ 8 + b1, by ring⟩ h0

/-- Reading back a stored word returns the stored 32-bit value. -/
theorem store_word_load_word (m : Memory) (a v : Nat) (hW : 2 ≤ m.address_length)
    (hv : v < 2 ^ 32) :
    (m.store_word a v).load_word a = v := by
  have hM : 4 ≤ 2 ^ m.address_length := by
    calc (4 : Nat) = 2 ^ 2 := rfl
    _ ≤ 2 ^ m.address_length := Nat.pow_le_pow_right (by omega) hW
  have d01 : a % 2 ^ m.address_length ≠ (a + 1) % 2 ^ m.address_length := by
    simpa using add_mod_ne (M := 2 ^ m.address_length) a (i := 0) (j := 1) (by omega) (by omega)
  have d02 : a % 2 ^ m.address_length ≠ (a + 2) % 2 ^ m.address_length := by
    simpa using add_mod_ne (M := 2 ^ m.address_length) a (i := 0) (j := 2) (by omega) (by omega)
  have d03 : a % 2 ^ m.address_length ≠ (a + 3) % 2 ^ m.address_length := by
    simpa using add_mod_ne (M := 2 ^ m.address_length) a (i := 0) (j := 3) (by omega) (by omega)
  have d12 : (a + 1) % 2 ^ m.address_length ≠ (a + 2) % 2 ^ m.address_length :=
    add_mod_ne (M := 2 ^ m.address_length) a (i := 1) (j := 2) (by omega) (by omega)
  have d13 : (a + 1) % 2 ^ m.address_length ≠ (a + 3) % 2 ^ m.address_length :=
    add_mod_ne (M := 2 ^ m.address_length) a (i := 1) (j := 3) (by omega) (by omega)
  have d23 : (a + 2) % 2 ^ m.address_length ≠ (a + 3) % 2 ^ m.address_length :=
    add_mod_ne (M := 2 ^ m.address_length) a (i := 2) (j := 3) (by omega) (by omega)
  simp only [Memory.store_word, Memory.load_word]
  rw [lookup_tail d03, lookup_tail d02, lookup_tail d01,
      lookup_tail d13, lookup_tail d12, lookup_tail d23,
      lookup_head, lookup_head, lookup_head, lookup_head]
  simp only [Option.getD_some]
  rw [Nat.mod_eq_of_lt hv]
  have hb0 : v % 2 ^ 8 < 2 ^ 8 := Nat.mod_lt _ (by norm_num)
  have hb1 : v / 2 ^ 8 % 2 ^ 8 < 2 ^ 8 := Nat.mod_lt _ (by norm_num)
  have hb2 : v / 2 ^ 16 % 2 ^ 8 < 2 ^ 8 := Nat.mod_lt _ (by norm_num)
  have hb3 : v / 2 ^ 24 % 2 ^ 8 < 2 ^ 8 := Nat.mod_lt _ (by norm_num)
  rw [four_bytes_or _ _ _ _ hb2 hb1 hb0]
  omega

/-- Reading back a stored halfword returns the stored 16-bit value. -/
theorem store_halfword_load_halfword (m : Memory) (a v : Nat)
    (hW : 1 ≤ m.address_length) (hv : v < 2 ^ 16) :
    (m.store_halfword a v).load_halfword a = v := by
  have hM : 2 ≤ 2 ^ m.address_length := by
    calc (2 : Nat) = 2 ^ 1 := rfl
    _ ≤ 2 ^ m.address_length := Nat.pow_le_pow_right (by omega) hW
  have d01 : a % 2 ^ m.address_length ≠ (a + 1) % 2 ^ m.address_length := by
    simpa using add_mod_ne (M := 2 ^ m.address_length) a (i := 0) (j := 1) (by omega) (by omega)
  simp only [Memory.store_halfword, Memory.load_halfword]
  rw [lookup_tail d01, lookup_head, lookup_head]
  simp only [Option.getD_some]
  rw [Nat.mod_eq_of_lt hv]
  have hb0 : v % 2 ^ 8 < 2 ^ 8 := Nat.mod_lt _ (by norm_num)
  have s1 : (v / 2 ^ 8 % 2 ^ 8) <<< 8 ||| v % 2 ^ 8 =
      v / 2 ^ 8 % 2 ^ 8 * 2 ^ 8 + v % 2 ^ 8 := by
    rw [Nat.shiftLeft_eq]
    exact or_join _ _ 8 ⟨v / 2 ^ 8 % 2 ^ 8, rfl⟩ hb0
  rw [s1]
  omega

/-- Reading back a stored byte returns the stored 8-bit value. -/
theorem store_byte_load_byte (m : Memory) (a v : Nat) :
    (m.store_byte a v).load_byte a = v % 2 ^ 8 := by
  simp only [Memory.store_byte, Memory.load_byte]
  rw [lookup_head]
  rfl

/-- C6 — store_word followed by load_word at the same address returns the
stored 32-bit value, the four bytes are laid out little-endian at
a .. a + 3 (all addresses reduced modulo 2 ^ address_length), and the
analogous round trips hold for halfwords and bytes. -/
theorem memory_word_roundtrip_little_endian (m : Memory) (a v : Nat)
    (hW : 2 ≤ m.address_length) (hv : v < 2 ^ 32) :
    (m.store_word a v).load_word a = v
    ∧ (m.store_word a v).load_byte a = v &&& 0xFF
    ∧ (m.store_word a v).load_byte (a + 1) = (v >>> 8) &&& 0xFF
    ∧ (m.store_word a v).load_byte (a + 2) = (v >>> 16) &&& 0xFF
    ∧ (m.store_word a v).load_byte (a + 3) = (v >>> 24) &&& 0xFF
    ∧ (∀ h : Nat, h < 2 ^ 16 → (m.store_halfword a h).load_halfword a = h)
    ∧ (∀ b : Nat, b < 2 ^ 8 → (m.store_byte a b).load_byte a = b) := by
  have hbytes := store_word_load_bytes m a v hW
  have hmask : ∀ x : Nat, x &&& 0xFF = x % 2 ^ 8 := fun x =>
    Nat.and_pow_two_sub_one_eq_mod x 8
  refine ⟨store_word_load_word m a v hW hv, ?_, ?_, ?_, ?_, ?_, ?_⟩
  · rw [hbytes.1, Nat.mod_eq_of_lt hv, hmask]
  · rw [hbytes.2.1, Nat.mod_eq_of_lt hv, hmask, Nat.shiftRight_eq_div_pow]
  · rw [hbytes.2.2.1, Nat.mod_eq_of_lt hv, hmask, Nat.shiftRight_eq_div_pow]
  · rw [hbytes.2.2.2, Nat.mod_eq_of_lt hv, hmask, Nat.shiftRight_eq_div_pow]
  · intro h hh
    exact store_halfword_load_halfword m a h (by omega) hh
  · intro b hb
    rw [store_byte_load_byte, Nat.mod_eq_of_lt hb]

/-- Witness for C6 at a concrete memory with a wrap-around address. -/
theorem memory_word_roundtrip_little_endian_witness :
    ((Memory.mk 32 []).store_word (2 ^ 32 - 2) 0xDEADBEEF).load_word (2 ^ 32 - 2) =
      0xDEADBEEF
    ∧ ((Memory.mk 32 []).store_word (2 ^ 32 - 2) 0xDEADBEEF).load_byte (2 ^ 32 - 2 + 1) =
      (0xDEADBEEF >>> 8) &&& 0xFF := by
  constructor
  · exact (memory_word_roundtrip_little_endian (Memory.mk 32 []) (2 ^ 32 - 2) 0xDEADBEEF
      (by decide) (by norm_num)).1
  · exact (memory_word_roundtrip_little_endian (Memory.mk 32 []) (2 ^ 32 - 2) 0xDEADBEEF
      (by decide) (by norm_num)).2.2.1

/-! ## C1: CSR privilege check -/

/-- C1 — evaluation of the privilege check at the failing input: the source
compares address and 0x300 without shifting, so a csrrw to an address whose
bits [9:8] are 0b01 (masked value 256) raises a privilege error at EVERY
privilege level 0..3, although the two privilege bits of the address read as
a value in 0..3 are 1.  The last conjunct characterises the check the code
actually performs. -/
theorem csr_privilege_check_compares_unshifted_bits :
    (0x100 >>> 8) &&& 0b11 = 1
    ∧ checkPrivilegeLevel 0x100 0 = .error .privilegeTooLow
    ∧ checkPrivilegeLevel 0x100 1 = .error .privilegeTooLow
    ∧ checkPrivilegeLevel 0x100 3 = .error .privilegeTooLow
    ∧ csrrwBehavior 0x100 7 { privilege_level := changePrivilegeLevel 0 1 } =
        .error .privilegeTooLow
    ∧ csrrwBehavior 0x100 7 { privilege_level := changePrivilegeLevel 0 3 } =
        .error .privilegeTooLow
    ∧ (∀ address priv : Nat,
        checkPrivilegeLevel address priv = .ok () ↔ address &&& 0b001100000000 ≤ priv) := by
  refine ⟨by decide, rfl, rfl, rfl, rfl, rfl, ?_⟩
  intro address priv
  constructor
  · intro hok
    by_contra hgt
    have herr : checkPrivilegeLevel address priv = .error .privilegeTooLow := by
      unfold checkPrivilegeLevel
      rw [if_pos (by omega)]
    rw [herr] at hok
    simp at hok
  · intro hle
    unfold checkPrivilegeLevel
    rw [if_neg (by omega)]

/-! ## C10: CSR word stores spill into neighbouring CSR addresses -/

/-- C10 counterexample — store_word(4095, v) does not succeed: address 4095
has privilege bits 0b11 (masked value 768, larger than every privilege level
reachable through change_privilege_level), so the store raises a privilege
error even at the maximum level 3; at level 0 it raises as well. -/
theorem csr_store_word_4095_raises :
    CsrRegisterFile.store_word
        { mem := {}, privilege_level := changePrivilegeLevel 0 3 } 4095 1 =
      .error .privilegeTooLow
    ∧ CsrRegisterFile.store_word { mem := {}, privilege_level := 0 } 4095 1 =
      .error .privilegeTooLow := ⟨rfl, rfl⟩

/-- C10 (amended) — a CSR word store whose base address passes the three
checks writes the four bytes of the value at byte addresses
csr .. csr + 3 of the underlying byte memory, so the following three CSR
addresses hold bytes of the stored value and distinct CSR addresses do not
denote disjoint 32-bit registers; only the base address is checked. -/
theorem csr_store_word_aliasing (c : CsrRegisterFile) (csr v : Nat)
    (hlegal : csr ≤ 4095)
    (hpriv : csr &&& 0b001100000000 ≤ c.privilege_level)
    (hro : ¬(csr &&& 0b100000000000 ≠ 0 ∧ csr &&& 0b010000000000 ≠ 0))
    (hW : 2 ≤ c.mem.address_length) (hv : v < 2 ^ 32) :
    ∃ c2, c.store_word csr v = .ok c2
      ∧ c2.mem = c.mem.store_word csr v
      ∧ c2.mem.load_byte csr = v &&& 0xFF
      ∧ c2.mem.load_byte (csr + 1) = (v >>> 8) &&& 0xFF
      ∧ c2.mem.load_byte (csr + 2) = (v >>> 16) &&& 0xFF
      ∧ c2.mem.load_byte (csr + 3) = (v >>> 24) &&& 0xFF
      ∧ c2.privilege_level = c.privilege_level := by
  have hbytes := store_word_load_bytes c.mem csr v hW
  have hmask : ∀ x : Nat, x &&& 0xFF = x % 2 ^ 8 := fun x =>
    Nat.and_pow_two_sub_one_eq_mod x 8
  have h1 : ¬csr > 4095 := by omega
  have h2 : ¬csr &&& 0b001100000000 > c.privilege_level := by omega
  refine ⟨{ c with mem := c.mem.store_word csr v }, ?_, rfl, ?_, ?_, ?_, ?_, rfl⟩
  · simp [CsrRegisterFile.store_word, checkForLegalAddress, checkPrivilegeLevel,
      checkReadOnly, h1, h2, hro]
    rfl
  · rw [hbytes.1, Nat.mod_eq_of_lt hv, hmask]
  · rw [hbytes.2.1, Nat.mod_eq_of_lt hv, hmask, Nat.shiftRight_eq_div_pow]
  · rw [hbytes.2.2.1, Nat.mod_eq_of_lt hv, hmask, Nat.shiftRight_eq_div_pow]
  · rw [hbytes.2.2.2, Nat.mod_eq_of_lt hv, hmask, Nat.shiftRight_eq_div_pow]

/-- Witness for the amended C10: base address 2303 (= 0x8FF, privilege bits
zero, read-only bits 0b10) passes all checks at privilege 0 and the store
creates bytes of the value at the neighbouring CSR addresses 2304..2306. -/
theorem csr_store_word_aliasing_witness :
    ∃ c2, CsrRegisterFile.store_word { mem := {}, privilege_level := 0 } 2303 0x11223344 =
        .ok c2
      ∧ c2.mem = (Memory.mk 32 []).store_word 2303 0x11223344
      ∧ c2.mem.load_byte 2303 = 0x11223344 &&& 0xFF
      ∧ c2.mem.load_byte (2303 + 1) = (0x11223344 >>> 8) &&& 0xFF
      ∧ c2.mem.load_byte (2303 + 2) = (0x11223344 >>> 16) &&& 0xFF
      ∧ c2.mem.load_byte (2303 + 3) = (0x11223344 >>> 24) &&& 0xFF
      ∧ c2.privilege_level = 0 :=
  csr_store_word_aliasing { mem := {}, privilege_level := 0 } 2303 0x11223344
    (by decide) (by decide) (by decide) (by decide) (by norm_num)

/-! ## C2: conditional branch semantics -/

/-- C2 — for every conditional branch beq/bne/blt/bge/bltu/bgeu built with
immediate i: when its condition on rs1 and rs2 holds, behavior adds
2 * sext12(i) minus the instruction length to the program counter (so the
engine's uniform PC += length step lands on old PC + 2 * sext12(i)) and
increments branch_count by exactly one; when the condition fails, behavior
leaves the whole state unchanged. -/
theorem branch_behavior_semantics (op : BranchOp) (rs1 rs2 : Nat) (imm : Int)
    (s : BranchState) :
    (branchCond op (regRead s.registers rs1) (regRead s.registers rs2) = true →
      branchBehavior op rs1 rs2 imm s =
        { s with
          program_counter := s.program_counter + 2 * sext12 imm - instructionLength,
          branch_count := s.branch_count + 1 })
    ∧ (branchCond op (regRead s.registers rs1) (regRead s.registers rs2) = false →
      branchBehavior op rs1 rs2 imm s = s) := by
  constructor
  · intro h
    simp [branchBehavior, h, btypeStoredImm]
  · intro h
    simp [branchBehavior, h]

/-- Witness for C2: a taken bne with immediate -2 moves the program counter
from 8 to 8 + 2 * (-2) - 4 = 0, and a failed beq changes nothing. -/
theorem branch_behavior_semantics_witness :
    branchBehavior .bne 1 2 (-2) ⟨8, 0, [0, 1, 5]⟩ = ⟨0, 1, [0, 1, 5]⟩
    ∧ branchBehavior .beq 1 2 100 ⟨8, 0, [0, 1, 5]⟩ = ⟨8, 0, [0, 1, 5]⟩ := by
  constructor
  · exact ((branch_behavior_semantics .bne 1 2 (-2) ⟨8, 0, [0, 1, 5]⟩).1
      (by decide)).trans (by decide)
  · exact (branch_behavior_semantics .beq 1 2 100 ⟨8, 0, [0, 1, 5]⟩).2 (by decide)

/-! ## C3: ID-stage hazard detection -/

/-- A later write register triggers a hazard exactly when it holds a nonzero
register equal to one of the two read addresses. -/
theorem writeRegisterHazard_iff (ra1 ra2 : Option Nat) (w : Option Nat) :
    writeRegisterHazard ra1 ra2 w = true ↔
      ∃ r : Nat, w = some r ∧ r ≠ 0 ∧ (ra1 = some r ∨ ra2 = some r) := by
  cases w with
  | none => simp [writeRegisterHazard]
  | some r =>
    by_cases hr : r = 0
    · subst hr
      simp [writeRegisterHazard]
    · simp [writeRegisterHazard, hr]

/-- C3 — with hazard detection enabled, the ID stage emits a flush signal if
and only if the write register of one of the instructions in EX, MEM or WB
is defined, nonzero and equal to ra1 or ra2 of the decoded instruction (a
hazard through register 0 is ignored), and every emitted flush is inclusive
with the decoded instruction's own address as target. -/
theorem id_stage_hazard_flush (ra1 ra2 ex_wr mem_wr wb_wr : Option Nat) (addr : Nat) :
    (idFlushSignal true ra1 ra2 addr [ex_wr, mem_wr, wb_wr] ≠ none ↔
      ∃ r : Nat, r ≠ 0 ∧ (ra1 = some r ∨ ra2 = some r) ∧
        (ex_wr = some r ∨ mem_wr = some r ∨ wb_wr = some r))
    ∧ (∀ f : FlushSignal,
        idFlushSignal true ra1 ra2 addr [ex_wr, mem_wr, wb_wr] = some f →
          f = ⟨true, addr⟩) := by
  constructor
  · unfold idFlushSignal
    by_cases hany :
        List.any [ex_wr, mem_wr, wb_wr] (writeRegisterHazard ra1 ra2) = true
    · rw [if_pos ⟨rfl, hany⟩]
      simp only [List.any, Bool.or_eq_true] at hany
      constructor
      · intro _
        rcases hany with h | h | h | h
        · obtain ⟨r, hw, hr, hra⟩ := (writeRegisterHazard_iff ra1 ra2 ex_wr).mp h
          exact ⟨r, hr, hra, Or.inl hw⟩
        · obtain ⟨r, hw, hr, hra⟩ := (writeRegisterHazard_iff ra1 ra2 mem_wr).mp h
          exact ⟨r, hr, hra, Or.inr (Or.inl hw)⟩
        · obtain ⟨r, hw, hr, hra⟩ := (writeRegisterHazard_iff ra1 ra2 wb_wr).mp h
          exact ⟨r, hr, hra, Or.inr (Or.inr hw)⟩
        · simp [writeRegisterHazard] at h
      · intro _
        simp
    · rw [if_neg (by simp [hany])]
      constructor
      · intro h
        exact absurd rfl h
      · intro ⟨r, hr, hra, hw⟩
        exfalso
        apply hany
        simp only [List.any, Bool.or_eq_true]
        rcases hw with hw | hw | hw
        · exact Or.inl ((writeRegisterHazard_iff ra1 ra2 ex_wr).mpr ⟨r, hw, hr, hra⟩)
        · exact Or.inr (Or.inl ((writeRegisterHazard_iff ra1 ra2 mem_wr).mpr ⟨r, hw, hr, hra⟩))
        · exact Or.inr (Or.inr (Or.inl
            ((writeRegisterHazard_iff ra1 ra2 wb_wr).mpr ⟨r, hw, hr, hra⟩)))
  · intro f hf
    unfold idFlushSignal at hf
    split at hf
    · exact (Option.some.injEq _ _ ▸ hf).symm ▸ rfl
    · cases hf

/-- Witness for C3: a decoded instruction reading register 1 at address 8
behind an EX-stage instruction writing register 1 yields the hazard
existence statement. -/
theorem id_stage_hazard_flush_witness :
    ∃ r : Nat, r ≠ 0 ∧ ((some 1 : Option Nat) = some r ∨ (none : Option Nat) = some r) ∧
      ((some 1 : Option Nat) = some r ∨ (none : Option Nat) = some r ∨
        (none : Option Nat) = some r) :=
  (id_stage_hazard_flush (some 1) none (some 1) none none 8).1.mp (by decide)

/-! ## C5: the single-cycle engine wraps behavior exceptions -/

/-- C5 — when the instruction memory holds an instruction at the program
counter: if the instruction's behavior raises, the single-cycle step returns
InstructionExecutionException carrying the faulting instruction's address,
its textual representation and the original error, and leaves the state
exactly as the failing behavior produced it — in particular the program
counter is NOT advanced by the instruction length; if the behavior succeeds,
the instruction length is added to the program counter. -/
theorem single_stage_wraps_behavior_errors
    (instruction_memory : Nat → Option SingleCycleInstruction)
    (s : SingleCycleState) (instr : SingleCycleInstruction)
    (hfetch : instruction_memory s.program_counter = some instr) :
    (∀ (after : SingleCycleState) (e : String),
      instr.behavior { s with instruction_count := s.instruction_count + 1 } =
          (after, some e) →
        singleStageBehavior instruction_memory s =
          (after, some ⟨s.program_counter, instr.reprStr, e⟩))
    ∧ (∀ after : SingleCycleState,
      instr.behavior { s with instruction_count := s.instruction_count + 1 } =
          (after, none) →
        singleStageBehavior instruction_memory s =
          ({ after with program_counter := after.program_counter + instr.length }, none)) := by
  constructor
  · intro after e hrun
    unfold singleStageBehavior
    rw [hfetch]
    simp only [hrun]
  · intro after hrun
    unfold singleStageBehavior
    rw [hfetch]
    simp only [hrun]

/-- Witness for C5: an ecall at address 0 raises, and the step reports the
wrapped exception with the pre-step program counter while only
instruction_count changed. -/
theorem single_stage_wraps_behavior_errors_witness :
    singleStageBehavior (fun a => if a = 0 then some ecallInstruction else none)
        ⟨0, 0, []⟩ =
      (⟨0, 1, []⟩,
        some ⟨0, "ecall", "InstructionNotImplemented(mnemonic=ecall)"⟩) :=
  (single_stage_wraps_behavior_errors
      (fun a => if a = 0 then some ecallInstruction else none)
      ⟨0, 0, []⟩ ecallInstruction rfl).1 ⟨0, 1, []⟩
    "InstructionNotImplemented(mnemonic=ecall)" rfl

/-! ## C7: shifts use only the low five bits of the shift amount -/

/-- C7 — the register shifts SLL/SRL/SRA depend on rs2 only through
rs2 mod 32, and the immediate shifts SLLI/SRLI/SRAI depend on the
constructor immediate only through its low five bits, so immediate bits
above bit 4 have no effect. -/
theorem shifts_use_low_five_bits (a b : Nat) :
    sllBehavior a b = sllBehavior a (b % 32)
    ∧ srlBehavior a b = srlBehavior a (b % 32)
    ∧ sraBehavior a b = sraBehavior a (b % 32)
    ∧ slliBehavior a b = slliBehavior a (b % 32)
    ∧ srliBehavior a b = srliBehavior a (b % 32)
    ∧ sraiBehavior a b = sraiBehavior a (b % 32) := by
  have hm : b % 32 % 32 = b % 32 := by omega
  have hmask : ∀ x : Nat, shiftImmStored x = x % 32 := fun x => by
    unfold shiftImmStored
    exact Nat.and_pow_two_sub_one_eq_mod x 5
  refine ⟨?_, ?_, ?_, ?_, ?_, ?_⟩ <;>
    simp [sllBehavior, srlBehavior, sraBehavior, slliBehavior, srliBehavior,
      sraiBehavior, hmask, hm]

/-! ## C8: toy BRZ branches exactly when the accumulator is zero -/

/-- C8 — executing BRZ(addr) with a zero accumulator sets the program
counter to addr and increments branch_count; with a nonzero accumulator it
increments the program counter and leaves branch_count unchanged; in both
cases the accumulator and the data memory are untouched. -/
theorem brz_branches_on_zero_accu (address : Nat) (s : ToyState)
    (haddr : address < 4096) :
    (s.accu = 0 →
      brzBehavior address s =
        { s with program_counter := address, branch_count := s.branch_count + 1 })
    ∧ (s.accu ≠ 0 →
      brzBehavior address s =
        { s with program_counter := (s.program_counter + 1) % 2 ^ 16 }) := by
  constructor
  · intro h
    simp [brzBehavior, h, toySetPc]
    omega
  · intro h
    simp [brzBehavior, h, toyIncrementPc]

/-- Witness for C8: BRZ 7 from program counter 3 — taken with accumulator 0,
fallthrough with accumulator 5. -/
theorem brz_branches_on_zero_accu_witness :
    brzBehavior 7 ⟨3, 0, [(1, 2)], 0⟩ = ⟨7, 0, [(1, 2)], 1⟩
    ∧ brzBehavior 7 ⟨3, 5, [(1, 2)], 0⟩ = ⟨4, 5, [(1, 2)], 0⟩ := by
  constructor
  · exact ((brz_branches_on_zero_accu 7 ⟨3, 0, [(1, 2)], 0⟩ (by decide)).1
      rfl).trans (by decide)
  · exact ((brz_branches_on_zero_accu 7 ⟨3, 5, [(1, 2)], 0⟩ (by decide)).2
      (by decide)).trans (by decide)

/-! ## C9: toy machine-code encoding and decoding -/

/-- C9 — from_integer extracts opcode (w >> 12) and 0xF and address
w and 0xFFF, opcodes 0..12 decode to STO..NOP and opcodes 13..15 decode to
NOP; to_integer(STO(0x123)) = 0x0123, from_integer(0x3ABC) = ADD(0xABC),
from_integer(0xF000) = NOP; and to_integer inverts from_integer for every
16-bit word with opcode at most 7, and for opcodes 8..12 when the address
bits are zero. -/
theorem toy_encoding (w : Nat) (hw : w < 2 ^ 16) :
    ((w >>> 12) &&& 0xF = 0 → ToyInstruction.from_integer w = .STO (w &&& 0xFFF))
    ∧ ((w >>> 12) &&& 0xF = 1 → ToyInstruction.from_integer w = .LDA (w &&& 0xFFF))
    ∧ ((w >>> 12) &&& 0xF = 2 → ToyInstruction.from_integer w = .BRZ (w &&& 0xFFF))
    ∧ ((w >>> 12) &&& 0xF = 3 → ToyInstruction.from_integer w = .ADD (w &&& 0xFFF))
    ∧ ((w >>> 12) &&& 0xF = 4 → ToyInstruction.from_integer w = .SUB (w &&& 0xFFF))
    ∧ ((w >>> 12) &&& 0xF = 5 → ToyInstruction.from_integer w = .OR (w &&& 0xFFF))
    ∧ ((w >>> 12) &&& 0xF = 6 → ToyInstruction.from_integer w = .AND (w &&& 0xFFF))
    ∧ ((w >>> 12) &&& 0xF = 7 → ToyInstruction.from_integer w = .XOR (w &&& 0xFFF))
    ∧ ((w >>> 12) &&& 0xF = 8 → ToyInstruction.from_integer w = .NOT)
    ∧ ((w >>> 12) &&& 0xF = 9 → ToyInstruction.from_integer w = .INC)
    ∧ ((w >>> 12) &&& 0xF = 10 → ToyInstruction.from_integer w = .DEC)
    ∧ ((w >>> 12) &&& 0xF = 11 → ToyInstruction.from_integer w = .ZRO)
    ∧ ((w >>> 12) &&& 0xF = 12 → ToyInstruction.from_integer w = .NOP)
    ∧ (13 ≤ (w >>> 12) &&& 0xF → ToyInstruction.from_integer w = .NOP)
    ∧ (ToyInstruction.mk_address .STO 0x123).to_integer = 0x0123
    ∧ ToyInstruction.from_integer 0x3ABC = .ADD 0xABC
    ∧ ToyInstruction.from_integer 0xF000 = .NOP
    ∧ ((w >>> 12) &&& 0xF ≤ 7 → (ToyInstruction.from_integer w).to_integer = w)
    ∧ (8 ≤ (w >>> 12) &&& 0xF → (w >>> 12) &&& 0xF ≤ 12 → w &&& 0xFFF = 0 →
        (ToyInstruction.from_integer w).to_integer = w) := by
  have h15 : ∀ x : Nat, x &&& 0xF = x % 16 := fun x => by
    have h := Nat.and_pow_two_sub_one_eq_mod x 4
    norm_num at h
    exact h
  have h4095 : ∀ x : Nat, x &&& 0xFFF = x % 4096 := fun x => by
    have h := Nat.and_pow_two_sub_one_eq_mod x 12
    norm_num at h
    exact h
  have hdivlt : w / 4096 < 16 := by omega
  have hop : (w >>> 12) &&& 0xF = w / 4096 := by
    rw [Nat.shiftRight_eq_div_pow, h15]
    norm_num
    omega
  refine ⟨?_, ?_, ?_, ?_, ?_, ?_, ?_, ?_, ?_, ?_, ?_, ?_, ?_, ?_,
    by decide, by decide, by decide, ?_, ?_⟩
  case _ => intro h; simp [ToyInstruction.from_integer, h]
  case _ => intro h; simp [ToyInstruction.from_integer, h]
  case _ => intro h; simp [ToyInstruction.from_integer, h]
  case _ => intro h; simp [ToyInstruction.from_integer, h]
  case _ => intro h; simp [ToyInstruction.from_integer, h]
  case _ => intro h; simp [ToyInstruction.from_integer, h]
  case _ => intro h; simp [ToyInstruction.from_integer, h]
  case _ => intro h; simp [ToyInstruction.from_integer, h]
  case _ => intro h; simp [ToyInstruction.from_integer, h]
  case _ => intro h; simp [ToyInstruction.from_integer, h]
  case _ => intro h; simp [ToyInstruction.from_integer, h]
  case _ => intro h; simp [ToyInstruction.from_integer, h]
  case _ => intro h; simp [ToyInstruction.from_integer, h]
  case _ =>
    intro h
    have h0 : ¬(w >>> 12) &&& 0xF = 0 := by omega
    have h1 : ¬(w >>> 12) &&& 0xF = 1 := by omega
    have h2 : ¬(w >>> 12) &&& 0xF = 2 := by omega
    have h3 : ¬(w >>> 12) &&& 0xF = 3 := by omega
    have h4 : ¬(w >>> 12) &&& 0xF = 4 := by omega
    have h5 : ¬(w >>> 12) &&& 0xF = 5 := by omega
    have h6 : ¬(w >>> 12) &&& 0xF = 6 := by omega
    have h7 : ¬(w >>> 12) &&& 0xF = 7 := by omega
    have h8 : ¬(w >>> 12) &&& 0xF = 8 := by omega
    have h9 : ¬(w >>> 12) &&& 0xF = 9 := by omega
    have h10 : ¬(w >>> 12) &&& 0xF = 10 := by omega
    have h11 : ¬(w >>> 12) &&& 0xF = 11 := by omega
    simp [ToyInstruction.from_integer, h0, h1, h2, h3, h4, h5, h6, h7, h8, h9,
      h10, h11]
  case _ =>
    intro h7
    rw [hop] at h7
    have hcase : w / 4096 = 0 ∨ w / 4096 = 1 ∨ w / 4096 = 2 ∨ w / 4096 = 3 ∨
        w / 4096 = 4 ∨ w / 4096 = 5 ∨ w / 4096 = 6 ∨ w / 4096 = 7 := by omega
    rcases hcase with h | h | h | h | h | h | h | h <;>
    · have hopk := hop
      rw [h] at hopk
      simp [ToyInstruction.from_integer, ToyInstruction.to_integer, hopk, h4095,
        Nat.shiftLeft_eq]
      omega
  case _ =>
    intro hlo hhi haddr
    rw [hop] at hlo hhi
    rw [h4095] at haddr
    have hcase : w / 4096 = 8 ∨ w / 4096 = 9 ∨ w / 4096 = 10 ∨ w / 4096 = 11 ∨
        w / 4096 = 12 := by omega
    rcases hcase with h | h | h | h | h <;>
    · have hopk := hop
      rw [h] at hopk
      simp [ToyInstruction.from_integer, ToyInstruction.to_integer, hopk,
        Nat.shiftLeft_eq]
      omega

/-- Witness for C9: the round trip evaluated at 0x3ABC and a decode of
opcode 8 at 0x8000. -/
theorem toy_encoding_witness :
    (ToyInstruction.from_integer 0x3ABC).to_integer = 0x3ABC
    ∧ ToyInstruction.from_integer 0x8000 = .NOT := by
  constructor
  · exact (toy_encoding 0x3ABC (by norm_num)).2.2.2.2.2.2.2.2.2.2.2.2.2.2.2.2.2.1
      (by decide)
  · exact (toy_encoding 0x8000 (by norm_num)).2.2.2.2.2.2.2.2.1 (by decide)

end ArchSim
